import Mathlib

/-!
Shallow embedding of `src/lib/db/job-details.ts`: a data-access layer for job
postings backed by a Postgres table (`job_details`), with zod validation,
CRUD operations and a paginated filtered search.

Modelling choices:
* JavaScript runtime values are modelled by `JVal`; an object is a key-ordered
  association list `Obj` with unique keys (`getKey` reads the first binding,
  `setKey`/`spreadObj` mirror property assignment and object spread).
* JS numbers are modelled as integers (`Int`); no claim depends on fractional
  or floating-point behaviour.
* The `client_history` JSONB column stores `JSON.stringify` of a structurally
  valid history object and the driver returns the parsed JSONB value; this
  serialize/parse pair is lossless on the shapes produced here, so the column
  is modelled as holding the structured `ClientHistory` value.
* The database table is a list of rows in insertion order; the primary-key
  constraint is expressed as a `Nodup` hypothesis on ids where needed.
* Backend errors are modelled by kind: a unique-constraint violation on
  INSERT surfaces as `Err.duplicateKey`, and the backend's rejection of a
  negative LIMIT/OFFSET surfaces as `Err.storageError`; zod failures wrapped
  by the code surface as `Err.validationError`.
* Each operation also returns the list of SQL statements it issued, so that
  "no write before validation" style properties are expressible.
-/

/-- The `verificationStatus` sub-object of a client history. -/
structure VerificationStatus where
  payment : Bool
  phone : Bool
  email : Bool
deriving DecidableEq

/-- The structured client-history sub-record (`ClientHistorySchema`). -/
structure ClientHistory where
  jobsPosted : Int
  hireRate : Int
  totalSpent : String
  memberSince : String
  verificationStatus : VerificationStatus
deriving DecidableEq

/-- A JavaScript runtime value, restricted to the value universe this module
manipulates: strings, numbers (modelled as `Int`), booleans, string arrays,
structurally valid client-history objects, and `null`. -/
inductive JVal where
  | jnull
  | jbool (b : Bool)
  | jnum (n : Int)
  | jstr (s : String)
  | jstrList (xs : List String)
  | jhist (h : ClientHistory)
deriving DecidableEq

/-- A JavaScript object: an insertion-ordered association list with unique
keys. An absent key models an `undefined` property. -/
abbrev Obj := List (String × JVal)

/-- Property read `o[k]`: the first binding of `k`, if any. -/
def getKey (o : Obj) (k : String) : Option JVal :=
  (o.find? (fun p => p.1 == k)).map (fun p => p.2)

/-- Property write: replace the binding of `k` in place if present, else
append it, exactly as JS object assignment / spread of a fresh key does. -/
def setKey (o : Obj) (k : String) (v : JVal) : Obj :=
  if o.any (fun p => p.1 == k) then
    o.map (fun p => if p.1 == k then (k, v) else p)
  else
    o ++ [(k, v)]

/-- Object spread `{...a, ...b}`: assign each binding of `b` over `a`. -/
def spreadObj (a b : Obj) : Obj :=
  b.foldl (fun acc p => setKey acc p.1 p.2) a

/-- The parsed shape of `JobDetailsSchema` (`type JobDetails`), with the
source's mixed external naming kept verbatim. -/
structure JobDetails where
  id : String
  title : String
  description : String
  longDescription : String
  budget : String
  time_posted : String
  category : String
  expertise : String
  proposals : Int
  client_rating : Int
  client_location : String
  jobType : String
  project_length : String
  weeklyHours : Option String
  skills : List String
  activityOn : String
  client_history : ClientHistory
  attachments : Option (List String)
  questions : Option (List String)
deriving DecidableEq

/-- Required `z.string()` field: present and a string. -/
def getStr (o : Obj) (k : String) : Option String :=
  match getKey o k with
  | some (JVal.jstr s) => some s
  | _ => none

/-- Required `z.number()` field: present and a number. -/
def getNum (o : Obj) (k : String) : Option Int :=
  match getKey o k with
  | some (JVal.jnum n) => some n
  | _ => none

/-- Required `z.array(z.string())` field. -/
def getStrList (o : Obj) (k : String) : Option (List String) :=
  match getKey o k with
  | some (JVal.jstrList xs) => some xs
  | _ => none

/-- Required nested `ClientHistorySchema` field: a structurally valid history
object (all sub-fields present with the declared types). -/
def getHist (o : Obj) (k : String) : Option ClientHistory :=
  match getKey o k with
  | some (JVal.jhist h) => some h
  | _ => none

/-- Optional `z.string().optional()` field: absent is fine, a present value
must be a string (in particular `null` is rejected, as zod does). -/
def getOptStr (o : Obj) (k : String) : Option (Option String) :=
  match getKey o k with
  | none => some none
  | some (JVal.jstr s) => some (some s)
  | some _ => none

/-- Optional `z.array(z.string()).optional()` field. -/
def getOptStrList (o : Obj) (k : String) : Option (Option (List String)) :=
  match getKey o k with
  | none => some none
  | some (JVal.jstrList xs) => some (some xs)
  | some _ => none

/-- The zod parse `JobDetailsSchema.parse`: succeeds iff every declared field
check passes, and returns the typed record (zod strips unknown keys, which the
typed result reflects). The zod error's list of all violations is collapsed to
`none`; no claim inspects the message. -/
def JobDetailsSchema.parse (o : Obj) : Option JobDetails :=
  match getStr o "id", getStr o "title", getStr o "description",
      getStr o "longDescription", getStr o "budget", getStr o "time_posted",
      getStr o "category", getStr o "expertise", getNum o "proposals",
      getNum o "client_rating", getStr o "client_location",
      getStr o "jobType", getStr o "project_length",
      getOptStr o "weeklyHours", getStrList o "skills",
      getStr o "activityOn", getHist o "client_history",
      getOptStrList o "attachments", getOptStrList o "questions" with
  | some id, some title, some description, some longDescription, some budget,
      some time_posted, some category, some expertise, some proposals,
      some client_rating, some client_location, some jobType,
      some project_length, some weeklyHours, some skills, some activityOn,
      some client_history, some attachments, some questions =>
    some ⟨id, title, description, longDescription, budget, time_posted,
      category, expertise, proposals, client_rating, client_location, jobType,
      project_length, weeklyHours, skills, activityOn, client_history,
      attachments, questions⟩
  | _, _, _, _, _, _, _, _, _, _, _, _, _, _, _, _, _, _, _ => none

/-- A row of the `job_details` table, columns in CREATE TABLE order. The two
nullable array columns and the nullable `weekly_hours` column are `Option`. -/
structure Row where
  id : String
  title : String
  description : String
  long_description : String
  budget : String
  time_posted : String
  category : String
  expertise : String
  proposals : Int
  client_rating : Int
  client_location : String
  job_type : String
  project_length : String
  weekly_hours : Option String
  skills : List String
  activity_on : String
  client_history : ClientHistory
  attachments : Option (List String)
  questions : Option (List String)
deriving DecidableEq

/-- The stored table: rows in insertion order. The primary-key constraint is
carried as a hypothesis on `id` duplicates where a claim needs it. -/
abbrev DB := List Row

/-- Kinds of SQL statements the module issues, recorded as a trace. -/
inductive Stmt where
  | select
  | insert
  | update
  | delete
deriving DecidableEq

/-- Error kinds reaching the caller: a wrapped zod failure, the propagated
unique-constraint violation of a duplicate-id INSERT, and any other backend
rejection (for example a negative LIMIT/OFFSET). -/
inductive Err where
  | validationError
  | duplicateKey
  | storageError
deriving DecidableEq

deriving instance DecidableEq for Except

/-- The INSERT's bound values, as a row: each storage column receives the
corresponding validated field (`longDescription` into `long_description`,
`jobType` into `job_type`, and so on); `client_history` receives the
serialized history. -/
def JobDetails.toRow (v : JobDetails) : Row :=
  ⟨v.id, v.title, v.description, v.longDescription, v.budget, v.time_posted,
    v.category, v.expertise, v.proposals, v.client_rating, v.client_location,
    v.jobType, v.project_length, v.weeklyHours, v.skills, v.activityOn,
    v.client_history, v.attachments, v.questions⟩

/-- Encoding of a nullable text column value as the driver returns it. -/
def optStrVal : Option String → JVal
  | none => JVal.jnull
  | some s => JVal.jstr s

/-- Encoding of a nullable text-array column value as the driver returns it. -/
def optListVal : Option (List String) → JVal
  | none => JVal.jnull
  | some xs => JVal.jstrList xs

/-- A result row as the driver materializes it: a JS object keyed by the
snake_case column names, in column order. -/
def rowToObj (r : Row) : Obj :=
  [("id", JVal.jstr r.id),
   ("title", JVal.jstr r.title),
   ("description", JVal.jstr r.description),
   ("long_description", JVal.jstr r.long_description),
   ("budget", JVal.jstr r.budget),
   ("time_posted", JVal.jstr r.time_posted),
   ("category", JVal.jstr r.category),
   ("expertise", JVal.jstr r.expertise),
   ("proposals", JVal.jnum r.proposals),
   ("client_rating", JVal.jnum r.client_rating),
   ("client_location", JVal.jstr r.client_location),
   ("job_type", JVal.jstr r.job_type),
   ("project_length", JVal.jstr r.project_length),
   ("weekly_hours", optStrVal r.weekly_hours),
   ("skills", JVal.jstrList r.skills),
   ("activity_on", JVal.jstr r.activity_on),
   ("client_history", JVal.jhist r.client_history),
   ("attachments", optListVal r.attachments),
   ("questions", optListVal r.questions)]

/-- `createJob`: validate, then INSERT all nineteen columns and return the
inserted row (`RETURNING *`, so the raw row object). A zod failure is wrapped
as a validation error before any statement is issued; a duplicate id makes
the INSERT fail with the propagated unique-constraint violation. -/
def createJob (jobDetails : Obj) (db : DB) : Except Err Obj × DB × List Stmt :=
  match JobDetailsSchema.parse jobDetails with
  | none => (Except.error Err.validationError, db, [])
  | some v =>
    if db.any (fun r => r.id == v.id) then
      (Except.error Err.duplicateKey, db, [Stmt.insert])
    else
      (Except.ok (rowToObj v.toRow), db ++ [v.toRow], [Stmt.insert])

/-- `getJob`: SELECT by primary key; `null` when absent, else the row object
spread together with a `clientHistory` alias for the `client_history` column
(`{...job, clientHistory: job.client_history}`). -/
def getJob (id : String) (db : DB) : Option Obj × List Stmt :=
  match db.filter (fun r => r.id == id) with
  | [] => (none, [Stmt.select])
  | r :: _ =>
    (some (setKey (rowToObj r) "clientHistory" (JVal.jhist r.client_history)),
     [Stmt.select])

/-- `updateJob`: read the current record via `getJob`; `null` when absent;
otherwise spread the patch over it, re-parse the merged object against the
full schema, and on success UPDATE every non-id column (`WHERE id`), returning
the updated row (`RETURNING *`). A zod failure on the merged object is wrapped
as a validation error; by then only the read was issued. -/
def updateJob (id : String) (patch : Obj) (db : DB) :
    Except Err (Option Obj) × DB × List Stmt :=
  match getJob id db with
  | (none, t) => (Except.ok none, db, t)
  | (some cur, t) =>
    match JobDetailsSchema.parse (spreadObj cur patch) with
    | none => (Except.error Err.validationError, db, t)
    | some v =>
      let newRow : Row :=
        ⟨id, v.title, v.description, v.longDescription, v.budget,
          v.time_posted, v.category, v.expertise, v.proposals,
          v.client_rating, v.client_location, v.jobType, v.project_length,
          v.weeklyHours, v.skills, v.activityOn, v.client_history,
          v.attachments, v.questions⟩
      (Except.ok (some (rowToObj newRow)),
       db.map (fun r => if r.id == id then newRow else r),
       t ++ [Stmt.update])

/-- `deleteJob`: DELETE by primary key with `RETURNING id`; the boolean says
whether any row was removed. -/
def deleteJob (id : String) (db : DB) : Bool × DB × List Stmt :=
  (db.any (fun r => r.id == id),
   db.filter (fun r => !(r.id == id)),
   [Stmt.delete])

/-- SQL LIKE pattern matching over character lists: `%` matches any sequence,
`_` any single character, anything else itself. Escape sequences are not used
by the module (patterns are built by wrapping the search string in `%`). -/
def likeMatch : List Char → List Char → Bool
  | [], [] => true
  | [], _ :: _ => false
  | p :: ps, [] => if p == '%' then likeMatch ps [] else false
  | p :: ps, h :: hs =>
    if p == '%' then likeMatch ps (h :: hs) || likeMatch (p :: ps) hs
    else if p == '_' then likeMatch ps hs
    else (p == h) && likeMatch ps hs
termination_by ps hs => (hs.length, ps.length)

/-- Postgres `ILIKE`: case-insensitive LIKE. -/
def ilike (hay : String) (pat : String) : Bool :=
  likeMatch pat.toLower.toList hay.toLower.toList

/-- The optional search filters of `searchJobs`. -/
structure SearchParams where
  category : Option String
  search : Option String
  expertise : Option String
deriving DecidableEq

/-- The contribution of the category filter to the WHERE clause: the exact
match is added only when the supplied value is truthy (present, non-empty). -/
def categoryCond (c : Option String) (r : Row) : Bool :=
  match c with
  | none => true
  | some c => if c == "" then true else r.category == c

/-- The contribution of the search filter: when truthy, the ILIKE disjunction
over title, description and long_description with the pattern `%search%`. -/
def searchCond (s : Option String) (r : Row) : Bool :=
  match s with
  | none => true
  | some s =>
    if s == "" then true
    else
      ilike r.title ("%" ++ s ++ "%") ||
      ilike r.description ("%" ++ s ++ "%") ||
      ilike r.long_description ("%" ++ s ++ "%")

/-- The contribution of the expertise filter: exact match when truthy. -/
def expertiseCond (e : Option String) (r : Row) : Bool :=
  match e with
  | none => true
  | some e => if e == "" then true else r.expertise == e

/-- Whether a row satisfies the WHERE clause `searchJobs` builds: the
conjunction (starting from the vacuous `1=1`) of the filter contributions. -/
def rowMatches (p : SearchParams) (r : Row) : Bool :=
  categoryCond p.category r && searchCond p.search r && expertiseCond p.expertise r

/-- All rows of the table satisfying the WHERE clause. -/
def matchedRows (p : SearchParams) (db : DB) : List Row :=
  db.filter (rowMatches p)

/-- The `ORDER BY time_posted DESC` ordering. Postgres leaves the order of
ties unspecified; the model fixes the stable insertion-sort order among equal
timestamps. -/
def timeDesc (a b : Row) : Prop := b.time_posted ≤ a.time_posted

instance timeDesc.decRel : DecidableRel timeDesc := fun a b =>
  inferInstanceAs (Decidable (b.time_posted ≤ a.time_posted))

/-- The ordered result set of the search query before LIMIT/OFFSET. -/
def orderedRows (p : SearchParams) (db : DB) : List Row :=
  List.insertionSort timeDesc (matchedRows p db)

/-- A returned search row: `SELECT *, COUNT(*) OVER() as total_count` gives
the row object followed by the window count of all matching rows, and the
result mapping then appends the `clientHistory` alias. -/
def resultRowObj (total : Nat) (r : Row) : Obj :=
  setKey (rowToObj r ++ [("total_count", JVal.jnum (total : Int))])
    "clientHistory" (JVal.jhist r.client_history)

/-- The value `searchJobs` resolves with. -/
structure SearchResult where
  jobs : List Obj
  total : Int
deriving DecidableEq

/-- The page of rows the query returns: the ordered result set after
`OFFSET (page - 1) * limit` and `LIMIT limit`. -/
def pageRows (p : SearchParams) (page : Int) (limit : Int) (db : DB) : List Row :=
  ((orderedRows p db).drop ((page - 1) * limit).toNat).take limit.toNat

/-- `searchJobs`: run the filtered query ordered by `time_posted DESC` with
`LIMIT limit OFFSET (page - 1) * limit`. The backend rejects a negative LIMIT
or OFFSET, which propagates as a storage error. `total` is read off the first
returned row's window count (`rows[0]?.total_count`), with `|| 0` turning an
empty page into 0. -/
def searchJobs (p : SearchParams) (page : Int) (limit : Int) (db : DB) :
    Except Err SearchResult × List Stmt :=
  if limit < 0 ∨ (page - 1) * limit < 0 then
    (Except.error Err.storageError, [Stmt.select])
  else
    (Except.ok
      ⟨(pageRows p page limit db).map (resultRowObj (orderedRows p db).length),
       match pageRows p page limit db with
       | [] => 0
       | _ :: _ => ((orderedRows p db).length : Int)⟩,
     [Stmt.select])

/-- Number of pages needed for `n` matches at page size `m`: the ceiling of
`n / m`. -/
def numPages (m n : Nat) : Nat := (n + m - 1) / m

/-- A concrete valid candidate record, in the external schema shape. -/
def sampleHistory : ClientHistory := ⟨1, 2, "sp", "ms", ⟨true, false, true⟩⟩

/-- A concrete valid input object for `createJob`: every required field
present with its declared type, optional fields absent. -/
def sampleJob : Obj :=
  [("id", JVal.jstr "j1"),
   ("title", JVal.jstr "A"),
   ("description", JVal.jstr "d"),
   ("longDescription", JVal.jstr "L"),
   ("budget", JVal.jstr "b"),
   ("time_posted", JVal.jstr "t"),
   ("category", JVal.jstr "c"),
   ("expertise", JVal.jstr "x"),
   ("proposals", JVal.jnum 5),
   ("client_rating", JVal.jnum 4),
   ("client_location", JVal.jstr "us"),
   ("jobType", JVal.jstr "h"),
   ("project_length", JVal.jstr "m"),
   ("skills", JVal.jstrList ["s"]),
   ("activityOn", JVal.jstr "a"),
   ("client_history", JVal.jhist sampleHistory)]

/-- The parse of `sampleJob`. -/
def sampleParsed : JobDetails :=
  ⟨"j1", "A", "d", "L", "b", "t", "c", "x", 5, 4, "us", "h", "m", none,
   ["s"], "a", sampleHistory, none, none⟩

/-- The stored row for `sampleJob`. -/
def sampleRow : Row := sampleParsed.toRow

/-- A one-row table holding `sampleJob`. -/
def sampleDb : DB := [sampleRow]

/-- The object `getJob` returns for the stored sample row. -/
def sampleFetched : Obj :=
  setKey (rowToObj sampleRow) "clientHistory" (JVal.jhist sampleHistory)

/-- A table contains a row with a given id exactly when the boolean `any`
scan used by the model says so. -/
theorem any_id_eq_true {db : DB} {s : String} (hex : ∃ r ∈ db, r.id = s) :
    db.any (fun r => r.id == s) = true := by
  obtain ⟨r, hr, hid⟩ := hex
  exact List.any_eq_true.mpr ⟨r, hr, by simp [hid]⟩

/-- Claim C1: refuted by evaluation (code bug). Creating the valid record
`sampleJob` succeeds and stores its row, but `getJob` then returns the raw
row object: the camelCase field `longDescription` is gone (its value sits
under the storage name `long_description`), likewise `jobType` and
`activityOn`, so the fetched record is not equal to the input record even
though the structured client history does survive under `clientHistory`. -/
theorem getJob_after_createJob_not_roundtrip :
    (createJob sampleJob []).1 = Except.ok (rowToObj sampleRow) ∧
    (createJob sampleJob []).2.1 = [sampleRow] ∧
    (getJob "j1" [sampleRow]).1 = some sampleFetched ∧
    getKey sampleJob "longDescription" = some (JVal.jstr "L") ∧
    getKey sampleFetched "longDescription" = none ∧
    getKey sampleFetched "long_description" = some (JVal.jstr "L") ∧
    getKey sampleFetched "jobType" = none ∧
    getKey sampleFetched "activityOn" = none ∧
    getKey sampleFetched "clientHistory" = some (JVal.jhist sampleHistory) ∧
    sampleFetched ≠ sampleJob := by decide

/-- Claim C2: refuted by evaluation (code bug). With the valid record stored,
`updateJob` with the single-field patch `{proposals: 7}` fails with a
validation error (the merged object, built on the snake_case row returned by
`getJob`, lacks the schema's `longDescription`, `jobType` and `activityOn`
fields), instead of returning the merged record; the store is untouched. -/
theorem updateJob_shallow_patch_rejected :
    getKey sampleFetched "title" = some (JVal.jstr "A") ∧
    getKey sampleFetched "proposals" = some (JVal.jnum 5) ∧
    (updateJob "j1" [("proposals", JVal.jnum 7)] sampleDb).1
      = Except.error Err.validationError ∧
    (updateJob "j1" [("proposals", JVal.jnum 7)] sampleDb).2.1 = sampleDb := by
  decide

/-- Claim C3: a `createJob` whose record validates but whose id is already
stored fails with the duplicate-key conflict (distinct from the validation
and storage error kinds), leaves the table unchanged, and issued only the
failing INSERT. -/
theorem createJob_duplicate_id_conflict (obj : Obj) (v : JobDetails) (db : DB)
    (hp : JobDetailsSchema.parse obj = some v)
    (hex : ∃ r ∈ db, r.id = v.id) :
    createJob obj db = (Except.error Err.duplicateKey, db, [Stmt.insert]) ∧
    Err.duplicateKey ≠ Err.validationError ∧
    Err.duplicateKey ≠ Err.storageError := by
  refine ⟨?_, by simp, by simp⟩
  simp [createJob, hp, any_id_eq_true hex]

/-- Witness for C3 at the sample record stored in the one-row table. -/
theorem createJob_duplicate_id_conflict_witness :
    createJob sampleJob sampleDb
        = (Except.error Err.duplicateKey, sampleDb, [Stmt.insert]) ∧
    Err.duplicateKey ≠ Err.validationError ∧
    Err.duplicateKey ≠ Err.storageError :=
  createJob_duplicate_id_conflict sampleJob sampleParsed sampleDb (by decide)
    ⟨sampleRow, by decide, by decide⟩

/-- Claim C6: `updateJob` on an id not in the table returns the not-found
result `null` (no error), leaves the table unchanged, and issued only the
lookup SELECT, no write. -/
theorem updateJob_missing_id_not_found (id : String) (patch : Obj) (db : DB)
    (h : ∀ r ∈ db, r.id ≠ id) :
    updateJob id patch db = (Except.ok none, db, [Stmt.select]) := by
  have hf : db.filter (fun r => r.id == id) = [] :=
    List.filter_eq_nil_iff.mpr (fun r hr => by simp [h r hr])
  simp [updateJob, getJob, hf]

/-- Witness for C6: updating an absent id on the one-row table. -/
theorem updateJob_missing_id_not_found_witness :
    updateJob "nope" [("proposals", JVal.jnum 7)] sampleDb
      = (Except.ok none, sampleDb, [Stmt.select]) :=
  updateJob_missing_id_not_found "nope" [("proposals", JVal.jnum 7)] sampleDb
    (by decide)

/-- Claim C8 counterexample: `updateJob` with a schema-violating patch on a
stored record does raise the validation error, but only after issuing the
lookup SELECT, so the error is not raised before any SQL statement. -/
theorem updateJob_validation_after_select :
    updateJob "j1" [("title", JVal.jnum 3)] sampleDb
      = (Except.error Err.validationError, sampleDb, [Stmt.select]) ∧
    [Stmt.select] ≠ ([] : List Stmt) := by decide

/-- Claim C8 as amended: `createJob` raises the validation error before any
SQL statement and leaves the table unchanged; `updateJob` issues the lookup
read first, but a validation failure still leaves the table unchanged with
no write statement issued (its trace is exactly the one SELECT). -/
theorem validation_failure_no_mutation (obj : Obj) (id : String) (patch : Obj)
    (db : DB) (h1 : JobDetailsSchema.parse obj = none) :
    createJob obj db = (Except.error Err.validationError, db, []) ∧
    ((updateJob id patch db).1 = Except.error Err.validationError →
      (updateJob id patch db).2.1 = db ∧
      (updateJob id patch db).2.2 = [Stmt.select]) := by
  constructor
  · simp [createJob, h1]
  · intro herr
    unfold updateJob getJob at herr ⊢
    cases hg : db.filter (fun r => r.id == id) with
    | nil => simp [hg] at herr
    | cons r rest =>
      simp only [hg] at herr ⊢
      cases hp : JobDetailsSchema.parse
          (spreadObj (setKey (rowToObj r) "clientHistory"
            (JVal.jhist r.client_history)) patch) with
      | none => simp [hp]
      | some v => simp [hp] at herr

/-- Witness for C8 as amended, at a patch violating the schema. -/
theorem validation_failure_no_mutation_witness :
    createJob [] sampleDb = (Except.error Err.validationError, sampleDb, []) ∧
    ((updateJob "j1" [("title", JVal.jnum 3)] sampleDb).1
        = Except.error Err.validationError →
      (updateJob "j1" [("title", JVal.jnum 3)] sampleDb).2.1 = sampleDb ∧
      (updateJob "j1" [("title", JVal.jnum 3)] sampleDb).2.2 = [Stmt.select]) :=
  validation_failure_no_mutation [] "j1" [("title", JVal.jnum 3)] sampleDb
    (by decide)

/-- Claim C9: `deleteJob` answers `true` exactly when a row with the id was
present; the surviving table holds exactly the rows with other ids, so a
second delete of the same id answers `false`; a missing id is a normal
`false`, never an error. -/
theorem deleteJob_reports_removal (id : String) (db : DB) :
    ((deleteJob id db).1 = true ↔ ∃ r ∈ db, r.id = id) ∧
    (∀ r ∈ (deleteJob id db).2.1, r.id ≠ id) ∧
    (∀ r ∈ db, r.id ≠ id → r ∈ (deleteJob id db).2.1) ∧
    (deleteJob id (deleteJob id db).2.1).1 = false := by
  refine ⟨by simp [deleteJob, List.any_eq_true], ?_, ?_, ?_⟩
  · intro r hr
    simp [deleteJob, List.mem_filter] at hr
    exact hr.2
  · intro r hr hne
    simp [deleteJob, List.mem_filter]
    exact ⟨hr, hne⟩
  · simp [deleteJob, List.any_eq_true, List.mem_filter]

/-- Two filter sets building the same WHERE predicate make `searchJobs`
behave identically. -/
theorem searchJobs_congr (p q : SearchParams) (page limit : Int) (db : DB)
    (h : rowMatches p = rowMatches q) :
    searchJobs p page limit db = searchJobs q page limit db := by
  unfold searchJobs pageRows orderedRows matchedRows
  rw [h]

/-- Claim C10: a filter supplied as the empty string is falsy, so the
predicate is omitted exactly as when the filter is absent: `searchJobs` is
literally the same function in the two cases, for each of the three filters. -/
theorem searchJobs_empty_filter_omitted (db : DB) (cf sf ef : Option String)
    (page limit : Int) :
    searchJobs ⟨some "", sf, ef⟩ page limit db
        = searchJobs ⟨none, sf, ef⟩ page limit db ∧
    searchJobs ⟨cf, some "", ef⟩ page limit db
        = searchJobs ⟨cf, none, ef⟩ page limit db ∧
    searchJobs ⟨cf, sf, some ""⟩ page limit db
        = searchJobs ⟨cf, sf, none⟩ page limit db := by
  refine ⟨?_, ?_, ?_⟩ <;>
    · apply searchJobs_congr
      funext r
      simp [rowMatches, categoryCond, searchCond, expertiseCond]

/-- With a 1-indexed page and a nonnegative limit the computed offset is
nonnegative, so the query succeeds and returns the page of the ordered result
set with the window-count total (0 on an empty page). -/
theorem searchJobs_ok_of_nonneg (p : SearchParams) (page limit : Int) (db : DB)
    (h1 : 1 ≤ page) (h2 : 0 ≤ limit) :
    searchJobs p page limit db =
      (Except.ok
        ⟨(pageRows p page limit db).map (resultRowObj (orderedRows p db).length),
         match pageRows p page limit db with
         | [] => 0
         | _ :: _ => ((orderedRows p db).length : Int)⟩,
       [Stmt.select]) := by
  have hoff : ¬(limit < 0 ∨ (page - 1) * limit < 0) := by
    push_neg
    exact ⟨h2, mul_nonneg (by omega) h2⟩
  unfold searchJobs
  rw [if_neg hoff]

/-- Claim C4 (amended): `searchJobs` computes the offset as
`(page - 1) * limit` with page 1-indexed: for `page ≥ 1` and `limit ≥ 0` the
call succeeds, returns at most `limit` rows, and its `i`-th returned job is
the ordered match at index `(page - 1) * limit + i`. There is no
normalization of `page < 1`: with a positive limit, any such page makes the
offset negative and the call fail with the backend's storage error, instead
of behaving like page 1. -/
theorem searchJobs_offset_no_normalization (p : SearchParams)
    (page limit : Int) (db : DB) (h1 : 1 ≤ page) (h2 : 0 ≤ limit) :
    (∃ res : SearchResult,
      (searchJobs p page limit db).1 = Except.ok res ∧
      res.jobs.length ≤ limit.toNat ∧
      ∀ (i : Nat) (hi : i < res.jobs.length)
        (hoff : ((page - 1) * limit).toNat + i < (orderedRows p db).length),
        res.jobs[i] = resultRowObj (orderedRows p db).length
          ((orderedRows p db).get ⟨((page - 1) * limit).toNat + i, hoff⟩)) ∧
    (∀ page2 : Int, page2 < 1 → 0 < limit →
      (searchJobs p page2 limit db).1 = Except.error Err.storageError) := by
  constructor
  · rw [searchJobs_ok_of_nonneg p page limit db h1 h2]
    refine ⟨_, rfl, ?_, ?_⟩
    · simp only [List.length_map, pageRows, List.length_take]
      exact inf_le_left
    · intro i hi hoff
      simp only [pageRows, List.getElem_map, List.getElem_take,
        List.getElem_drop, List.get_eq_getElem]
  · intro page2 hp2 hl
    have hneg : (page2 - 1) * limit < 0 :=
      mul_neg_of_neg_of_pos (by omega) hl
    unfold searchJobs
    rw [if_pos (Or.inr hneg)]

/-- Witness for C4 as amended, at page 1 and limit 10 on the sample table. -/
theorem searchJobs_offset_no_normalization_witness :
    (∃ res : SearchResult,
      (searchJobs ⟨none, none, none⟩ 1 10 sampleDb).1 = Except.ok res ∧
      res.jobs.length ≤ (10 : Int).toNat ∧
      ∀ (i : Nat) (hi : i < res.jobs.length)
        (hoff : (((1 : Int) - 1) * 10).toNat + i
          < (orderedRows ⟨none, none, none⟩ sampleDb).length),
        res.jobs[i] = resultRowObj (orderedRows ⟨none, none, none⟩ sampleDb).length
          ((orderedRows ⟨none, none, none⟩ sampleDb).get
            ⟨(((1 : Int) - 1) * 10).toNat + i, hoff⟩)) ∧
    (∀ page2 : Int, page2 < 1 → 0 < (10 : Int) →
      (searchJobs ⟨none, none, none⟩ page2 10 sampleDb).1
        = Except.error Err.storageError) :=
  searchJobs_offset_no_normalization ⟨none, none, none⟩ 1 10 sampleDb
    (by decide) (by decide)

/-- Claim C4 counterexample: page 0 with limit 10 is not normalized to
page 1 — it fails with a storage error while page 1 succeeds. -/
theorem searchJobs_page_zero_not_page_one :
    (searchJobs ⟨none, none, none⟩ 0 10 sampleDb).1 = Except.error Err.storageError ∧
    (searchJobs ⟨none, none, none⟩ 1 10 sampleDb).1
      = Except.ok ⟨[resultRowObj 1 sampleRow], 1⟩ := by decide

/-- Chunks of size `m` taken at offsets `0, m, 2m, ...` reassemble the list,
for any chunk count `k` whose reach `k * m` covers the list. -/
theorem chunks_flatten {α : Type} (m : Nat) :
    ∀ (k : Nat) (l : List α), l.length ≤ k * m →
      ((List.range k).map (fun i => (l.drop (i * m)).take m)).flatten = l := by
  intro k
  induction k with
  | zero =>
    intro l hl
    rw [Nat.zero_mul] at hl
    have h0 : l = [] := List.eq_nil_of_length_eq_zero (Nat.le_zero.mp hl)
    simp [h0]
  | succ k ih =>
    intro l hl
    rw [List.range_succ_eq_map, List.map_cons, List.flatten_cons, List.map_map]
    have hcomp : ∀ i ∈ List.range k,
        ((fun i => (l.drop (i * m)).take m) ∘ Nat.succ) i
          = ((l.drop m).drop (i * m)).take m := by
      intro i _
      have hidx : Nat.succ i * m = m + i * m := by
        rw [Nat.succ_mul, Nat.add_comm]
      simp only [Function.comp_apply, List.drop_drop, hidx]
    have hlen : (l.drop m).length ≤ k * m := by
      rw [List.length_drop]
      refine Nat.sub_le_iff_le_add.mpr ?_
      calc l.length ≤ Nat.succ k * m := hl
        _ = k * m + m := Nat.succ_mul k m
    rw [List.map_congr_left hcomp, ih (l.drop m) hlen]
    simp [List.take_append_drop]

/-- A page index below the page count starts before the end of the list. -/
theorem mul_lt_of_lt_numPages {m n i : Nat} (hm : 0 < m)
    (hi : i < numPages m n) : i * m < n := by
  unfold numPages at hi
  have h1 : i + 1 ≤ (n + m - 1) / m := hi
  have h2 : (i + 1) * m ≤ n + m - 1 := (Nat.le_div_iff_mul_le hm).mp h1
  rw [Nat.add_mul, Nat.one_mul] at h2
  generalize i * m = t at h2 ⊢
  omega

/-- The page count times the page size reaches the end of the list. -/
theorem numPages_mul_ge {m n : Nat} (hm : 0 < m) : n ≤ numPages m n * m := by
  unfold numPages
  have hdm := Nat.div_add_mod (n + m - 1) m
  have hlt : (n + m - 1) % m < m := Nat.mod_lt _ hm
  rw [Nat.mul_comm]
  generalize m * ((n + m - 1) / m) = t at hdm ⊢
  generalize (n + m - 1) % m = r at hdm hlt
  omega

/-- Every returned search row carries its table row's id under the `id` key. -/
theorem getKey_resultRowObj_id (n : Nat) (r : Row) :
    getKey (resultRowObj n r) "id" = some (JVal.jstr r.id) := rfl

/-- With unique ids in the table, the id projection of the ordered match list
is duplicate-free. -/
theorem orderedRows_id_nodup (p : SearchParams) (db : DB)
    (hids : (db.map Row.id).Nodup) :
    ((orderedRows p db).map Row.id).Nodup := by
  have hperm : (orderedRows p db).Perm (matchedRows p db) :=
    List.perm_insertionSort timeDesc (matchedRows p db)
  have hsub : ((matchedRows p db).map Row.id).Sublist (db.map Row.id) :=
    List.Sublist.map Row.id (List.filter_sublist db)
  have hmn : ((matchedRows p db).map Row.id).Nodup :=
    List.Nodup.sublist hsub hids
  exact ((hperm.map Row.id).nodup_iff).mpr hmn

/-- Rows with duplicate-free ids map to duplicate-free search result objects
(each object embeds its id). -/
theorem map_resultRowObj_nodup (n : Nat) {l : List Row}
    (h : (l.map Row.id).Nodup) : (l.map (resultRowObj n)).Nodup := by
  apply List.Nodup.of_map (fun o => getKey o "id")
  rw [List.map_map]
  have hcomp : ((fun o => getKey o "id") ∘ resultRowObj n)
      = fun r : Row => some (JVal.jstr r.id) := by
    funext r
    exact getKey_resultRowObj_id n r
  rw [hcomp]
  have hsplit : (fun r : Row => some (JVal.jstr r.id))
      = (fun s => some (JVal.jstr s)) ∘ Row.id := rfl
  rw [hsplit, ← List.map_map]
  refine List.Nodup.map ?_ h
  intro a b hab
  simpa using hab

/-- Claim C5 (amended): with page size `m > 0` and unique ids, every page
`i + 1` with `i < numPages` returns the `i`-th chunk of the ordered match
list together with `total` equal to the match count; every page past the
last non-empty page returns no rows and `total = 0` (not the match count);
the in-range chunks reassemble the entire ordered match list, which is a
permutation of the set of matching rows; and the jobs arrays of distinct
in-range pages are pairwise disjoint. -/
theorem searchJobs_pagination_consistency (p : SearchParams) (db : DB)
    (m : Nat) (hm : 0 < m) (hids : (db.map Row.id).Nodup) :
    (∀ i : Nat, i < numPages m (orderedRows p db).length →
      (searchJobs p ((i : Int) + 1) ((m : Int)) db).1 =
        Except.ok
          ⟨(((orderedRows p db).drop (i * m)).take m).map
              (resultRowObj (orderedRows p db).length),
           ((orderedRows p db).length : Int)⟩) ∧
    (∀ i : Nat, numPages m (orderedRows p db).length ≤ i →
      (searchJobs p ((i : Int) + 1) ((m : Int)) db).1
        = Except.ok ⟨[], 0⟩) ∧
    ((List.range (numPages m (orderedRows p db).length)).map
        (fun i => ((orderedRows p db).drop (i * m)).take m)).flatten
      = orderedRows p db ∧
    (orderedRows p db).Perm (matchedRows p db) ∧
    List.Pairwise List.Disjoint
      ((List.range (numPages m (orderedRows p db).length)).map
        (fun i => (((orderedRows p db).drop (i * m)).take m).map
          (resultRowObj (orderedRows p db).length))) := by
  have hpg : ∀ i : Nat, pageRows p ((i : Int) + 1) ((m : Int)) db
      = ((orderedRows p db).drop (i * m)).take m := by
    intro i
    unfold pageRows
    have harg : (((i : Int) + 1 - 1) * (m : Int)).toNat = i * m := by
      have h : ((i : Int) + 1 - 1) * (m : Int) = ((i * m : Nat) : Int) := by
        push_cast
        ring
      rw [h, Int.toNat_ofNat]
    rw [harg, Int.toNat_ofNat]
  have hok : ∀ i : Nat, searchJobs p ((i : Int) + 1) ((m : Int)) db =
      (Except.ok
        ⟨(pageRows p ((i : Int) + 1) ((m : Int)) db).map
            (resultRowObj (orderedRows p db).length),
         match pageRows p ((i : Int) + 1) ((m : Int)) db with
         | [] => 0
         | _ :: _ => ((orderedRows p db).length : Int)⟩,
       [Stmt.select]) := fun i =>
    searchJobs_ok_of_nonneg p ((i : Int) + 1) ((m : Int)) db
      (by omega) (by omega)
  refine ⟨?_, ?_, ?_, List.perm_insertionSort timeDesc (matchedRows p db), ?_⟩
  · intro i hi
    have hlt : i * m < (orderedRows p db).length := mul_lt_of_lt_numPages hm hi
    rw [hok i]
    cases hc : ((orderedRows p db).drop (i * m)).take m with
    | nil =>
      exfalso
      rcases List.take_eq_nil_iff.mp hc with h | h
      · omega
      · have hh : (orderedRows p db).length ≤ i * m :=
          List.drop_eq_nil_iff.mp h
        omega
    | cons q qs =>
      simp only [hpg i, hc]
  · intro i hi
    have hge : (orderedRows p db).length ≤ i * m :=
      le_trans (numPages_mul_ge hm) (Nat.mul_le_mul hi (Nat.le_refl m))
    have hnil : pageRows p ((i : Int) + 1) ((m : Int)) db = [] := by
      rw [hpg i, List.drop_eq_nil_of_le hge, List.take_nil]
    rw [hok i, hnil]
    simp
  · exact chunks_flatten m _ _ (numPages_mul_ge hm)
  · have hidnodup := orderedRows_id_nodup p db hids
    have hmapnodup := map_resultRowObj_nodup (orderedRows p db).length hidnodup
    have h1 : (List.range (numPages m (orderedRows p db).length)).map
        (fun i => (((orderedRows p db).drop (i * m)).take m).map
          (resultRowObj (orderedRows p db).length))
        = ((List.range (numPages m (orderedRows p db).length)).map
            (fun i => ((orderedRows p db).drop (i * m)).take m)).map
          (List.map (resultRowObj (orderedRows p db).length)) := by
      rw [List.map_map]
      rfl
    have hfl : ((List.range (numPages m (orderedRows p db).length)).map
        (fun i => (((orderedRows p db).drop (i * m)).take m).map
          (resultRowObj (orderedRows p db).length))).flatten
        = (orderedRows p db).map (resultRowObj (orderedRows p db).length) := by
      rw [h1, ← List.map_flatten, chunks_flatten m _ _ (numPages_mul_ge hm)]
    have hnd : ((List.range (numPages m (orderedRows p db).length)).map
        (fun i => (((orderedRows p db).drop (i * m)).take m).map
          (resultRowObj (orderedRows p db).length))).flatten.Nodup := by
      rw [hfl]
      exact hmapnodup
    exact (List.nodup_flatten.mp hnd).2

/-- Witness for C5 as amended, on the one-row sample table with page size
ten. -/
theorem searchJobs_pagination_consistency_witness :
    (∀ i : Nat, i < numPages 10 (orderedRows ⟨none, none, none⟩ sampleDb).length →
      (searchJobs ⟨none, none, none⟩ ((i : Int) + 1) ((10 : Nat) : Int) sampleDb).1 =
        Except.ok
          ⟨(((orderedRows ⟨none, none, none⟩ sampleDb).drop (i * 10)).take 10).map
              (resultRowObj (orderedRows ⟨none, none, none⟩ sampleDb).length),
           ((orderedRows ⟨none, none, none⟩ sampleDb).length : Int)⟩) ∧
    (∀ i : Nat, numPages 10 (orderedRows ⟨none, none, none⟩ sampleDb).length ≤ i →
      (searchJobs ⟨none, none, none⟩ ((i : Int) + 1) ((10 : Nat) : Int) sampleDb).1
        = Except.ok ⟨[], 0⟩) ∧
    ((List.range (numPages 10 (orderedRows ⟨none, none, none⟩ sampleDb).length)).map
        (fun i => ((orderedRows ⟨none, none, none⟩ sampleDb).drop (i * 10)).take 10)).flatten
      = orderedRows ⟨none, none, none⟩ sampleDb ∧
    (orderedRows ⟨none, none, none⟩ sampleDb).Perm
      (matchedRows ⟨none, none, none⟩ sampleDb) ∧
    List.Pairwise List.Disjoint
      ((List.range (numPages 10 (orderedRows ⟨none, none, none⟩ sampleDb).length)).map
        (fun i => (((orderedRows ⟨none, none, none⟩ sampleDb).drop (i * 10)).take 10).map
          (resultRowObj (orderedRows ⟨none, none, none⟩ sampleDb).length))) :=
  searchJobs_pagination_consistency ⟨none, none, none⟩ sampleDb 10
    (by decide) (by decide)

/-- Claim C5 counterexample: with one matching record and limit 10, page 1
reports `total = 1`, but page 2 — past the last non-empty page — reports
`total = 0` rather than the match count. -/
theorem searchJobs_total_zero_past_last_page :
    (searchJobs ⟨none, none, none⟩ 1 10 sampleDb).1
      = Except.ok ⟨[resultRowObj 1 sampleRow], 1⟩ ∧
    (searchJobs ⟨none, none, none⟩ 2 10 sampleDb).1 = Except.ok ⟨[], 0⟩ ∧
    ((1 : Int) ≠ 0) := by decide

/-- Claim C7: with both filters non-empty, a row is matched exactly when it
is stored and satisfies both exact predicates (conjunction); the page-1
search with limit covering the table returns exactly those rows as objects,
up to the query order; and removing any one filter from a filter set only
enlarges the matched set (monotone broadening). -/
theorem searchJobs_conjunction_monotone (db : DB) (c e : String)
    (hc : c ≠ "") (he : e ≠ "") :
    (∀ r : Row, r ∈ matchedRows ⟨some c, none, some e⟩ db ↔
      r ∈ db ∧ r.category = c ∧ r.expertise = e) ∧
    (∃ res : SearchResult,
      (searchJobs ⟨some c, none, some e⟩ 1 (db.length : Int) db).1
          = Except.ok res ∧
      res.jobs.Perm ((matchedRows ⟨some c, none, some e⟩ db).map
        (resultRowObj (matchedRows ⟨some c, none, some e⟩ db).length))) ∧
    (∀ (q : SearchParams) (r : Row), r ∈ matchedRows q db →
      r ∈ matchedRows ⟨none, q.search, q.expertise⟩ db) ∧
    (∀ (q : SearchParams) (r : Row), r ∈ matchedRows q db →
      r ∈ matchedRows ⟨q.category, none, q.expertise⟩ db) ∧
    (∀ (q : SearchParams) (r : Row), r ∈ matchedRows q db →
      r ∈ matchedRows ⟨q.category, q.search, none⟩ db) := by
  refine ⟨?_, ?_, ?_, ?_, ?_⟩
  · intro r
    have hcb : (c == "") = false := by simp [hc]
    have heb : (e == "") = false := by simp [he]
    simp [matchedRows, List.mem_filter, rowMatches, categoryCond, searchCond,
      expertiseCond, hcb, heb, and_assoc]
  · have hlen : (orderedRows ⟨some c, none, some e⟩ db).length
        = (matchedRows ⟨some c, none, some e⟩ db).length :=
      List.length_insertionSort timeDesc _
    have hle : (orderedRows ⟨some c, none, some e⟩ db).length ≤ db.length := by
      rw [hlen]
      exact List.length_filter_le _ _
    have hpg1 : pageRows ⟨some c, none, some e⟩ 1 (db.length : Int) db
        = orderedRows ⟨some c, none, some e⟩ db := by
      unfold pageRows
      have h0 : (((1 : Int) - 1) * (db.length : Int)).toNat = 0 := by simp
      rw [h0, List.drop_zero, Int.toNat_ofNat]
      exact List.take_of_length_le hle
    rw [searchJobs_ok_of_nonneg ⟨some c, none, some e⟩ 1 (db.length : Int) db
      (by omega) (by omega)]
    refine ⟨_, rfl, ?_⟩
    rw [hpg1, hlen]
    exact (List.perm_insertionSort timeDesc _).map _
  · intro q r hr
    simp only [matchedRows, List.mem_filter, rowMatches, Bool.and_eq_true]
      at hr ⊢
    exact ⟨hr.1, ⟨rfl, hr.2.1.2⟩, hr.2.2⟩
  · intro q r hr
    simp only [matchedRows, List.mem_filter, rowMatches, Bool.and_eq_true]
      at hr ⊢
    exact ⟨hr.1, ⟨hr.2.1.1, rfl⟩, hr.2.2⟩
  · intro q r hr
    simp only [matchedRows, List.mem_filter, rowMatches, Bool.and_eq_true]
      at hr ⊢
    exact ⟨hr.1, ⟨hr.2.1.1, hr.2.1.2⟩, rfl⟩

/-- Witness for C7 on the sample table, whose row has category `c` and
expertise `x`. -/
theorem searchJobs_conjunction_monotone_witness :
    (∀ r : Row, r ∈ matchedRows ⟨some "c", none, some "x"⟩ sampleDb ↔
      r ∈ sampleDb ∧ r.category = "c" ∧ r.expertise = "x") ∧
    (∃ res : SearchResult,
      (searchJobs ⟨some "c", none, some "x"⟩ 1 (sampleDb.length : Int) sampleDb).1
          = Except.ok res ∧
      res.jobs.Perm ((matchedRows ⟨some "c", none, some "x"⟩ sampleDb).map
        (resultRowObj (matchedRows ⟨some "c", none, some "x"⟩ sampleDb).length))) ∧
    (∀ (q : SearchParams) (r : Row), r ∈ matchedRows q sampleDb →
      r ∈ matchedRows ⟨none, q.search, q.expertise⟩ sampleDb) ∧
    (∀ (q : SearchParams) (r : Row), r ∈ matchedRows q sampleDb →
      r ∈ matchedRows ⟨q.category, none, q.expertise⟩ sampleDb) ∧
    (∀ (q : SearchParams) (r : Row), r ∈ matchedRows q sampleDb →
      r ∈ matchedRows ⟨q.category, q.search, none⟩ sampleDb) :=
  searchJobs_conjunction_monotone sampleDb "c" "x" (by decide) (by decide)
